import Mathlib

/-!
Verification of the strict_result crate: a wrapper around a Result-like
value that participates in the error-propagation protocol without the
implicit error-type conversion that the bare Result performs.

The embedding follows src/src/lib.rs. Rust's `Result<A, B>` is `RResult A B`,
`Infallible` is `Empty`, `core::ops::ControlFlow` is `ControlFlow`, and the
`B2: From<B>` bound of the third `FromResidual` impl is modelled as an
explicit conversion function `f : B → B2` standing for `From::from`.
-/

/-- Rust's `Result<A, B>`: success payload `A` or failure payload `B`. -/
inductive RResult (A B : Type) where
  | Ok : A → RResult A B
  | Err : B → RResult A B
deriving DecidableEq, Repr

/-- Rust's `core::ops::ControlFlow<B, C>` as used by `Try::branch`. -/
inductive ControlFlow (B C : Type) where
  | Break : B → ControlFlow B C
  | Continue : C → ControlFlow B C
deriving DecidableEq, Repr

/-- The crate's `StrictResult<A, B>`: a single-field wrapper around a
`Result<A, B>` (`pub struct StrictResult<A, B>(Result<A, B>);`). -/
structure StrictResult (A B : Type) where
  val : RResult A B
deriving DecidableEq, Repr

/-- `Strict::strict` for `Result<A, B>`: wraps the value
(`fn strict(self) -> StrictResult<A, B> { StrictResult(self) }`). -/
def RResult.strict {A B : Type} (r : RResult A B) : StrictResult A B :=
  StrictResult.mk r

/-- `StrictResult::loose`: returns the wrapped value
(`pub fn loose(self) -> Result<A, B> { self.0 }`). -/
def StrictResult.loose {A B : Type} (s : StrictResult A B) : RResult A B :=
  s.val

/-- `FromResidual<StrictResult<Infallible, B>> for StrictResult<A, B>`:
`match r.loose() { Ok(v) => match v {}, Err(v) => Err(v) }.strict()`. -/
def StrictResult.from_residual {A B : Type} (r : StrictResult Empty B) :
    StrictResult A B :=
  match r.loose with
  | RResult.Ok v => nomatch v
  | RResult.Err v => (RResult.Err v : RResult A B).strict

/-- `FromResidual<StrictResult<Infallible, B>> for Result<A, B>`:
`match r.loose() { Ok(v) => match v {}, Err(r) => Err(r) }`. -/
def RResult.from_residual {A B : Type} (r : StrictResult Empty B) :
    RResult A B :=
  match r.loose with
  | RResult.Ok v => nomatch v
  | RResult.Err e => RResult.Err e

/-- `FromResidual<Result<Infallible, B>> for StrictResult<A, B2>` with
`B2: From<B>`: `match r { Ok(v) => match v {}, Err(r) => Err(r.into()) }.strict()`.
The `From<B>` conversion `.into()` is the explicit function `f`. -/
def StrictResult.from_residual_result {A B B2 : Type} (f : B → B2)
    (r : RResult Empty B) : StrictResult A B2 :=
  match r with
  | RResult.Ok v => nomatch v
  | RResult.Err e => (RResult.Err (f e) : RResult A B2).strict

/-- `Try::from_output` for `StrictResult<A, B>`: `Ok(r).strict()`. -/
def StrictResult.from_output {A B : Type} (a : A) : StrictResult A B :=
  (RResult.Ok a : RResult A B).strict

/-- `Try::branch` for `StrictResult<A, B>`:
`match self.loose() { Ok(v) => Continue(v), Err(e) => Break(Err(e).strict()) }`. -/
def StrictResult.branch {A B : Type} (s : StrictResult A B) :
    ControlFlow (StrictResult Empty B) A :=
  match s.loose with
  | RResult.Ok v => ControlFlow.Continue v
  | RResult.Err e => ControlFlow.Break ((RResult.Err e : RResult Empty B).strict)

/-- Modelled from the spec: the host language's default propagation protocol
on a bare Result-like value (Rust std's `Try for Result`), which branches on
the two variants; not part of src/, described in §4.1 of the spec as "the
default behavior of propagation on a bare Result-like value". -/
def RResult.branch {A B : Type} (r : RResult A B) :
    ControlFlow (RResult Empty B) A :=
  match r with
  | RResult.Ok v => ControlFlow.Continue v
  | RResult.Err e => ControlFlow.Break (RResult.Err e)

/-- Modelled from the spec: the host language's default residual conversion
for a bare Result-like value (Rust std's `FromResidual` for `Result` with
`F: From<E>`), which applies the implicit widening `f` to the failure
payload on exit; not part of src/, described in the spec's glossary as
"implicit widening". -/
def RResult.from_residual_conv {A B B2 : Type} (f : B → B2)
    (r : RResult Empty B) : RResult A B2 :=
  match r with
  | RResult.Ok v => nomatch v
  | RResult.Err e => RResult.Err (f e)

/-- Desugaring of one use of `?` on a strict value inside a function
returning `StrictResult`: branch, then either continue into `k` or exit
through `StrictResult.from_residual`. -/
def propagateStrict {A A2 B : Type} (r : RResult A B)
    (k : A → StrictResult A2 B) : StrictResult A2 B :=
  match (r.strict).branch with
  | ControlFlow.Continue v => k v
  | ControlFlow.Break res => StrictResult.from_residual res

/-- Desugaring of one use of `?` on a bare Result-like value inside a
function returning the bare Result-like type with the same failure type,
where the implicit widening is the identity. -/
def propagateResult {A A2 B : Type} (r : RResult A B)
    (k : A → RResult A2 B) : RResult A2 B :=
  match r.branch with
  | ControlFlow.Continue v => k v
  | ControlFlow.Break res => RResult.from_residual_conv id res

/-- C1: converting a strict residual holding `Err b` into the enclosing
function's `StrictResult A B` via `FromResidual::from_residual` produces
exactly `Err(b).strict()`; the signature forces the residual's failure type
to equal the enclosing failure type `B` with no conversion applied. -/
theorem from_residual_strict_forwards_unchanged (A B : Type) (b : B) :
    (StrictResult.from_residual ((RResult.Err b : RResult Empty B).strict) :
      StrictResult A B) = (RResult.Err b : RResult A B).strict :=
  rfl

/-- C2: `Try::branch` on `strict(Ok a)` returns `ControlFlow.Continue a`,
yielding the success payload unchanged (the continue path). -/
theorem branch_ok_continues (A B : Type) (a : A) :
    ((RResult.Ok a : RResult A B).strict).branch = ControlFlow.Continue a :=
  rfl

/-- C3: `Try::branch` on `strict(Err b)` returns `ControlFlow.Break r` where
the residual `r` is a `StrictResult` whose contained value is exactly
`Err b`. -/
theorem branch_err_breaks (A B : Type) (b : B) :
    ((RResult.Err b : RResult A B).strict).branch
      = ControlFlow.Break ((RResult.Err b : RResult Empty B).strict)
    ∧ ((RResult.Err b : RResult Empty B).strict).loose = RResult.Err b :=
  ⟨rfl, rfl⟩

/-- C4: for every Result-like value `r`, `loose (strict r) = r`, and `loose`
is a two-sided inverse of `strict`; both are total functions. -/
theorem loose_strict_inverse (A B : Type) :
    (∀ r : RResult A B, (r.strict).loose = r)
    ∧ (∀ w : StrictResult A B, (w.loose).strict = w) :=
  ⟨fun _ => rfl, fun _ => rfl⟩

/-- C5: converting a strict residual holding `Err b` into an enclosing
function returning a bare `Result A B` produces exactly `Err b`, with the
same failure type `B` and no conversion. -/
theorem from_residual_to_result_forwards_unchanged (A B : Type) (b : B) :
    (RResult.from_residual ((RResult.Err b : RResult Empty B).strict) :
      RResult A B) = RResult.Err b :=
  rfl

/-- C6: `Try::from_output a` wraps the success payload directly: it equals
`strict(Ok a)` and its loose form is `Ok a`. -/
theorem from_output_wraps_directly (A B : Type) (a : A) :
    (StrictResult.from_output a : StrictResult A B)
        = (RResult.Ok a : RResult A B).strict
    ∧ (StrictResult.from_output a : StrictResult A B).loose = RResult.Ok a :=
  ⟨rfl, rfl⟩

/-- C7: converting a bare Result residual holding `Err b` into an enclosing
function returning `StrictResult A B2`, with the `From<B>` conversion
modelled by `f`, produces `Err(f b).strict()`: the ordinary `?` on a plain
Result inside a strict-returning function still applies the widening. -/
theorem from_residual_result_applies_conversion (A B B2 : Type) (f : B → B2)
    (b : B) :
    (StrictResult.from_residual_result f (RResult.Err b : RResult Empty B) :
      StrictResult A B2) = (RResult.Err (f b) : RResult A B2).strict :=
  rfl

/-- C8: every operation of the wrapper is a total structural transformation:
on each of the finitely many structural forms of its input it returns the
stated value, every residual input is of one of the stated forms, and no
operation has any other outcome. -/
theorem all_operations_total_structural (A B B2 : Type) :
    (∀ r : RResult A B, (r.strict).loose = r)
    ∧ (∀ w : StrictResult A B, (w.loose).strict = w)
    ∧ (∀ a : A, (StrictResult.from_output a : StrictResult A B).loose
        = RResult.Ok a)
    ∧ (∀ a : A, ((RResult.Ok a : RResult A B).strict).branch
        = ControlFlow.Continue a)
    ∧ (∀ b : B, ((RResult.Err b : RResult A B).strict).branch
        = ControlFlow.Break ((RResult.Err b : RResult Empty B).strict))
    ∧ (∀ r : StrictResult Empty B, ∃ b : B,
        r = (RResult.Err b : RResult Empty B).strict)
    ∧ (∀ b : B, (StrictResult.from_residual
        ((RResult.Err b : RResult Empty B).strict) : StrictResult A B)
        = (RResult.Err b : RResult A B).strict)
    ∧ (∀ b : B, (RResult.from_residual
        ((RResult.Err b : RResult Empty B).strict) : RResult A B)
        = RResult.Err b)
    ∧ (∀ (f : B → B2) (b : B),
        (StrictResult.from_residual_result f (RResult.Err b) :
          StrictResult A B2) = (RResult.Err (f b) : RResult A B2).strict) := by
  refine ⟨fun _ => rfl, fun _ => rfl, fun _ => rfl, fun _ => rfl, fun _ => rfl,
    ?_, fun _ => rfl, fun _ => rfl, fun _ _ => rfl⟩
  intro r
  match r with
  | StrictResult.mk (RResult.Ok v) => exact v.elim
  | StrictResult.mk (RResult.Err b) => exact ⟨b, rfl⟩

/-- C9: the residual type `StrictResult Empty B` is failure-only: its
success payload type is uninhabited, so every residual value holds a
failure payload, making the success arm of every from_residual match
unreachable. -/
theorem residual_is_failure_only (B : Type) :
    ∀ r : StrictResult Empty B, ∃ b : B,
      r = (RResult.Err b : RResult Empty B).strict := by
  intro r
  match r with
  | StrictResult.mk (RResult.Ok v) => exact v.elim
  | StrictResult.mk (RResult.Err b) => exact ⟨b, rfl⟩

/-- C10: computing through the wrapper is observationally equivalent to
using the bare Result-like value directly: when the failure type equals the
enclosing failure type, one step of strict propagation followed by
unwrapping yields the same Result as the default propagation, and strict
and loose form a bijection between the two representations. -/
theorem strict_protocol_observationally_equivalent (A A2 B : Type) :
    (∀ (r : RResult A B) (k : A → RResult A2 B),
      (propagateStrict r (fun a => (k a).strict)).loose = propagateResult r k)
    ∧ (∀ r : RResult A B, (r.strict).loose = r)
    ∧ (∀ w : StrictResult A B, (w.loose).strict = w) := by
  refine ⟨?_, fun _ => rfl, fun _ => rfl⟩
  intro r k
  cases r with
  | Ok a => rfl
  | Err b => rfl
